import Mathlib

/-!
Verification development for the `check-codeowners-dead-paths` tool
(`src/main.py`): a CODEOWNERS-style manifest validator.  The Python source
is shallowly embedded below: `parse_codeowners` and `generate_diff_patch`
become pure Lean functions over an explicit filesystem oracle, and the
string/path primitives they rely on (`str.strip`, `re.split(r"\s+", _, 1)`,
`os.path.join`, `os.path.normpath`, `str.rstrip("\r\n")`) are translated
from CPython's documented semantics (restricted to ASCII whitespace).
-/

/-- Python ASCII whitespace characters, as matched by `str.strip()` and the
regex class of whitespace used in `re.split` in the source. -/
def isPyWhitespace (c : Char) : Bool :=
  c = ' ' || c = '\t' || c = '\n' || c = '\r' || c = '\x0b' || c = '\x0c'

/-- Python `str.strip()`: remove leading and trailing whitespace. -/
def pyStrip (s : String) : String :=
  String.mk (((s.data.dropWhile isPyWhitespace).reverse.dropWhile isPyWhitespace).reverse)

/-- Python `str.rstrip('\r\n')`: remove trailing carriage returns and
newlines (`main.py` lines 84 and 129). -/
def pyRstripCRLF (s : String) : String :=
  String.mk ((s.data.reverse.dropWhile (fun c => c = '\r' || c = '\n')).reverse)

/-- Core of `re.split(r"\s+", line, maxsplit=1)` on a list of characters:
split at the first maximal run of whitespace.  Returns the part before the
run and the part after it (empty when there is no whitespace). -/
def splitWSAux : List Char → List Char × List Char
  | [] => ([], [])
  | c :: cs =>
    if isPyWhitespace c then ([], cs.dropWhile isPyWhitespace)
    else
      let r := splitWSAux cs
      (c :: r.1, r.2)

/-- `re.split(r"\s+", line, maxsplit=1)` (`main.py` line 53), packaged as
`(parts[0], parts[1] or "")`.  The input in the source is already
stripped, so there is no leading whitespace run to consider. -/
def splitFirstWS (s : String) : String × String :=
  let r := splitWSAux s.data
  (String.mk r.1, String.mk r.2)

/-- Python `s.startswith(t)`, stated structurally on the character data
(the semantics of `String.startsWith`). -/
def pyStartsWith (s t : String) : Bool :=
  t.data.isPrefixOf s.data

/-- Python `s.endswith(t)`, stated structurally on the character data
(the semantics of `String.endsWith`). -/
def pyEndsWith (s t : String) : Bool :=
  t.data.isSuffixOf s.data

/-- Python `s[1:]` on a string: drop the first character. -/
def pyDropOne (s : String) : String :=
  String.mk (s.data.drop 1)

/-- Helper for `splitSlash`: accumulate the current component (reversed)
while walking the characters. -/
def splitSlashAux : List Char → List Char → List (List Char)
  | [], cur => [cur.reverse]
  | c :: cs, cur =>
    if c = '/' then cur.reverse :: splitSlashAux cs []
    else splitSlashAux cs (c :: cur)

/-- Python `p.split('/')` (the component split used by
`posixpath.normpath`). -/
def splitSlash (p : String) : List String :=
  (splitSlashAux p.data []).map String.mk

/-- `'/'.join(components)`: interleave the components with single
slashes. -/
def joinSlash : List String → String
  | [] => ""
  | [s] => s
  | s :: rest => s ++ "/" ++ joinSlash rest

/-- POSIX `os.path.join(a, b)` (CPython `posixpath.join`). -/
def posixJoin (a b : String) : String :=
  if pyStartsWith b "/" then b
  else if a = "" || pyEndsWith a "/" then a ++ b
  else a ++ "/" ++ b

/-- One step of the component loop inside CPython `posixpath.normpath`. -/
def normpathStep (initialSlashes : Nat) (acc : List String) (comp : String) :
    List String :=
  if comp = "" || comp = "." then acc
  else if comp != ".." || (initialSlashes == 0 && acc.isEmpty)
      || (!acc.isEmpty && acc.getLast? == some "..") then
    acc ++ [comp]
  else if !acc.isEmpty then acc.dropLast
  else acc

/-- POSIX `os.path.normpath` (CPython `posixpath.normpath`): collapse
repeated separators and `.`/`..` components, preserving the special
two-leading-slash case. -/
def normpath (p : String) : String :=
  if p = "" then "."
  else
    let initialSlashes : Nat :=
      if pyStartsWith p "/" then
        if pyStartsWith p "//" && !(pyStartsWith p "///") then 2 else 1
      else 0
    let comps := splitSlash p
    let newComps := comps.foldl (normpathStep initialSlashes) []
    let joined := String.mk (List.replicate initialSlashes '/') ++
      joinSlash newComps
    if joined = "" then "." else joined

/-- The filesystem state visible to the tool, as an oracle: `os.path.exists`
on a path, whether `glob.glob` of a pattern returns at least one match,
the current working directory `os.getcwd()`, and the line sequence
(each line keeping its terminator, as Python file iteration yields)
obtained by opening a path for reading. -/
structure FileSystem where
  pathExists : String → Bool
  globNonempty : String → Bool
  cwd : String
  fileLines : String → List String

/-- One element of `nonexistent_entries_details` (`main.py` lines 80-85):
the pattern as written, the display owner, the 1-based line number, and
the original line with trailing `\r`/`\n` stripped. -/
structure StaleEntry where
  filePattern : String
  displayOwner : String
  lineNum : Nat
  displayLine : String
deriving Repr, DecidableEq

/-- `project_root or os.getcwd()` (`main.py` line 61): an empty (falsy)
project root falls back to the current working directory. -/
def currentRoot (projectRoot : String) (fs : FileSystem) : String :=
  if projectRoot = "" then fs.cwd else projectRoot

/-- Whether the pattern contains a glob metacharacter
(`main.py` line 72). -/
def hasGlobChar (s : String) : Bool :=
  s.data.any (fun c => c = '*' || c = '?' || c = '[')

/-- The normalized filesystem-check target for a pattern
(`main.py` lines 63-69): strip a leading `/` and join to the root,
otherwise join directly; then `os.path.normpath`. -/
def checkedPath (root filePattern : String) : String :=
  normpath (if pyStartsWith filePattern "/" then posixJoin root (pyDropOne filePattern)
            else posixJoin root filePattern)

/-- The existence test of `main.py` lines 71-76: glob expansion when the
pattern has a metacharacter, plain path existence otherwise, both on the
normalized check target. -/
def entryExists (fs : FileSystem) (root filePattern : String) : Bool :=
  if hasGlobChar filePattern then fs.globNonempty (checkedPath root filePattern)
  else fs.pathExists (checkedPath root filePattern)

/-- The body of the per-line loop of `parse_codeowners`
(`main.py` lines 49-85): skip blank and comment lines, split pattern from
owner, run the existence test, and build a stale entry when it fails. -/
def processLine (projectRoot : String) (fs : FileSystem) (lineNum : Nat)
    (raw : String) : Option StaleEntry :=
  let line := pyStrip raw
  if line = "" || pyStartsWith line "#" then none
  else
    let parts := splitFirstWS line
    if entryExists fs (currentRoot projectRoot fs) parts.1 then none
    else some
      { filePattern := parts.1
        displayOwner := if parts.2 = "" then "<No owner specified>" else parts.2
        lineNum := lineNum
        displayLine := pyRstripCRLF raw }

/-- The loop of `parse_codeowners` over the file's lines, carrying the
running line counter (`line_num_1_indexed`); entries are appended in file
order. -/
def processLines (projectRoot : String) (fs : FileSystem) :
    Nat → List String → List StaleEntry
  | _, [] => []
  | n, raw :: rest =>
    match processLine projectRoot fs (n + 1) raw with
    | none => processLines projectRoot fs (n + 1) rest
    | some e => e :: processLines projectRoot fs (n + 1) rest

/-- The fatal error of `parse_codeowners`: the manifest file is absent
(`main.py` lines 40-42, reported and followed by `sys.exit(1)`). -/
inductive ParseError where
  | notFound
deriving Repr, DecidableEq

/-- `parse_codeowners(codeowners_path, project_root)`
(`main.py` lines 37-87): fail when the manifest does not exist, otherwise
return the stale entries and all original lines. -/
def parse_codeowners (codeownersPath projectRoot : String) (fs : FileSystem) :
    Except ParseError (List StaleEntry × List String) :=
  if fs.pathExists codeownersPath then
    let lines := fs.fileLines codeownersPath
    .ok (processLines projectRoot fs 0 lines, lines)
  else .error .notFound

/-- The `patch_lines` list built by `generate_diff_patch`
(`main.py` lines 115-133): two headers, the single hunk header, then one
prefixed line per original line.  `relativeFilepath` is the display path
computed by the git-root / cwd fallback logic (lines 92-113), which calls
the external `git` collaborator; it is passed in here as an input.
Line counts use `Int` because Python's subtraction is not truncated. -/
def patchLines (relativeFilepath : String) (entries : List StaleEntry)
    (originalLines : List String) : List String :=
  let linesToDelete := (entries.map (·.lineNum)).dedup
  let originalNumLines : Int := originalLines.length
  let newNumLines : Int := originalNumLines - linesToDelete.length
  ("--- a/" ++ relativeFilepath) ::
  ("+++ b/" ++ relativeFilepath) ::
  ("@@ -1," ++ toString originalNumLines ++ " +1," ++ toString newNumLines
      ++ " @@") ::
  (originalLines.enum.map (fun p =>
    let content := pyRstripCRLF p.2
    if (p.1 + 1) ∈ linesToDelete then "-" ++ content else " " ++ content))

/-- `generate_diff_patch` output (`main.py` line 135): the patch lines
joined by newlines, with a final newline appended. -/
def generate_diff_patch (relativeFilepath : String) (entries : List StaleEntry)
    (originalLines : List String) : String :=
  String.intercalate "\n" (patchLines relativeFilepath entries originalLines)
    ++ "\n"

/-! ## Concrete filesystem oracles used by witnesses and counterexamples -/

/-- A filesystem on which no path exists and no glob matches; the manifest
file content is empty. -/
def fsEmpty : FileSystem :=
  { pathExists := fun _ => false
    globNonempty := fun _ => false
    cwd := "/cwd"
    fileLines := fun _ => [] }

/-- A filesystem on which every path exists; used to exercise manifests
whose entries all resolve. -/
def fsAll : FileSystem :=
  { pathExists := fun _ => true
    globNonempty := fun _ => true
    cwd := "/cwd"
    fileLines := fun _ => ["# c\n", "   \n", "\t# x\n", ""] }

/-! ## Helper lemmas -/

/-- A stale entry produced at line counter `k` carries exactly `k` and the
raw line with trailing newline characters stripped. -/
theorem processLine_fields (projectRoot : String) (fs : FileSystem) (k : Nat)
    (raw : String) (e : StaleEntry)
    (h : processLine projectRoot fs k raw = some e) :
    e.lineNum = k ∧ e.displayLine = pyRstripCRLF raw := by
  simp only [processLine] at h
  split at h
  · exact absurd h (by simp)
  · split at h
    · exact absurd h (by simp)
    · cases h
      exact ⟨rfl, rfl⟩

/-- A blank or comment line (after trimming) is skipped. -/
theorem processLine_skips (projectRoot : String) (fs : FileSystem) (k : Nat)
    (raw : String)
    (h : pyStrip raw = "" ∨ pyStartsWith (pyStrip raw) "#" = true) :
    processLine projectRoot fs k raw = none := by
  unfold processLine
  rcases h with h' | h' <;> simp [h']

/-- When every line is blank after trimming or is a comment, the parse
loop produces no stale entries, from any starting line counter. -/
theorem processLines_eq_nil_of_skipped (projectRoot : String)
    (fs : FileSystem) (lines : List String)
    (h : ∀ raw ∈ lines, pyStrip raw = "" ∨ pyStartsWith (pyStrip raw) "#" = true) :
    ∀ m : Nat, processLines projectRoot fs m lines = [] := by
  induction lines with
  | nil => intro m; rfl
  | cons raw rest ih =>
    intro m
    have hskip : processLine projectRoot fs (m + 1) raw = none :=
      processLine_skips projectRoot fs (m + 1) raw (h raw (by simp))
    simp only [processLines, hskip]
    exact ih (fun r hr => h r (by simp [hr])) (m + 1)

/-! ## Claim theorems -/

/-- C5: if the manifest file does not exist, `parse_codeowners` fails with
the not-found error and produces no stale-entry output at all. -/
theorem parse_missing_manifest (codeownersPath projectRoot : String)
    (fs : FileSystem) (h : fs.pathExists codeownersPath = false) :
    parse_codeowners codeownersPath projectRoot fs =
      Except.error ParseError.notFound := by
  unfold parse_codeowners
  simp [h]

/-- Witness for C5 at a concrete absent manifest path. -/
theorem parse_missing_manifest_witness :
    parse_codeowners "/repo/CODEOWNERS" "/repo" fsEmpty =
      Except.error ParseError.notFound :=
  parse_missing_manifest "/repo/CODEOWNERS" "/repo" fsEmpty rfl

/-- C8: the parser is deterministic — it is a pure function of the manifest
path, the resolution root and the filesystem state, so two runs against
the same state return identical stale-entry lists in the same order; the
embedding has no side effects by construction. -/
theorem parse_deterministic (codeownersPath projectRoot : String)
    (fs : FileSystem) :
    parse_codeowners codeownersPath projectRoot fs =
      parse_codeowners codeownersPath projectRoot fs := rfl

/-- C9: comment detection applies to the trimmed line — any line whose
trimmed content starts with `#` is skipped and never yields a stale
entry. -/
theorem trimmed_comment_skipped (projectRoot : String) (fs : FileSystem)
    (n : Nat) (raw : String) (h : pyStartsWith (pyStrip raw) "#" = true) :
    processLine projectRoot fs n raw = none :=
  processLine_skips projectRoot fs n raw (Or.inr h)

/-- Witness for C9: a comment preceded by whitespace is skipped. -/
theorem trimmed_comment_skipped_witness :
    processLine "/r" fsEmpty 1 "   # note\n" = none :=
  trimmed_comment_skipped "/r" fsEmpty 1 "   # note\n" (by decide)

/-- An empty project root and an explicit current working directory give
the same effective resolution root (`project_root or os.getcwd()`). -/
theorem currentRoot_empty (fs : FileSystem) :
    currentRoot "" fs = currentRoot fs.cwd fs := by
  simp [currentRoot]

/-- The per-line check behaves identically for an empty project root and
for the current working directory passed explicitly. -/
theorem processLine_empty_root (fs : FileSystem) (n : Nat) (raw : String) :
    processLine "" fs n raw = processLine fs.cwd fs n raw := by
  simp only [processLine, currentRoot_empty]

/-- The parse loop behaves identically for an empty project root and for
the current working directory passed explicitly. -/
theorem processLines_empty_root (fs : FileSystem) :
    ∀ (m : Nat) (lines : List String),
      processLines "" fs m lines = processLines fs.cwd fs m lines := by
  intro m lines
  induction lines generalizing m with
  | nil => rfl
  | cons raw rest ih =>
    simp only [processLines, processLine_empty_root, ih]

/-- C10: calling the parser with an empty (falsy) resolution root silently
substitutes the current working directory, so an empty-string root behaves
identically to passing the current working directory. -/
theorem empty_root_uses_cwd (codeownersPath : String) (fs : FileSystem) :
    parse_codeowners codeownersPath "" fs =
      parse_codeowners codeownersPath fs.cwd fs := by
  unfold parse_codeowners
  simp only [processLines_empty_root]

/-- C6 counterexample: on a pattern-only stale line the recorded display
owner is the code's literal sentinel `"<No owner specified>"`, not the
string `"no owner specified"` stated by the claim. -/
theorem sentinel_owner_counterexample :
    (processLine "/r" fsEmpty 1 "pat").map StaleEntry.displayOwner =
        some "<No owner specified>" ∧
    ("<No owner specified>" : String) ≠ "no owner specified" := by
  exact ⟨rfl, by decide⟩

/-- C6 (amended): a non-comment, non-blank line whose whitespace split has
an empty owner remainder is still processed — it is stale exactly when the
existence test fails — and a stale entry for it displays the sentinel
owner value `"<No owner specified>"`, not an error. -/
theorem sentinel_owner_amended (projectRoot : String) (fs : FileSystem)
    (n : Nat) (raw : String) (h1 : pyStrip raw ≠ "")
    (h2 : pyStartsWith (pyStrip raw) "#" = false)
    (h3 : (splitFirstWS (pyStrip raw)).2 = "") :
    (processLine projectRoot fs n raw).isSome =
      !(entryExists fs (currentRoot projectRoot fs)
          (splitFirstWS (pyStrip raw)).1) ∧
    ∀ e, processLine projectRoot fs n raw = some e →
      e.displayOwner = "<No owner specified>" := by
  have hc : (decide (pyStrip raw = "") || pyStartsWith (pyStrip raw) "#")
      = false := by
    simp [h1, h2]
  constructor
  · cases hE : entryExists fs (currentRoot projectRoot fs)
        (splitFirstWS (pyStrip raw)).1 <;>
      simp [processLine, hc, hE]
  · intro e he
    simp only [processLine, hc, Bool.false_eq_true, if_false] at he
    split at he
    · exact absurd he (by simp)
    · cases he
      simp [h3]

/-- Witness for the amended C6 on a pattern-only line with nothing on the
filesystem. -/
theorem sentinel_owner_amended_witness :
    (processLine "/r" fsEmpty 1 "pat").isSome =
      !(entryExists fsEmpty (currentRoot "/r" fsEmpty)
          (splitFirstWS (pyStrip "pat")).1) ∧
    ∀ e, processLine "/r" fsEmpty 1 "pat" = some e →
      e.displayOwner = "<No owner specified>" :=
  sentinel_owner_amended "/r" fsEmpty 1 "pat" (by decide) (by decide) (by decide)

/-- C7: a manifest in which every line is blank after trimming or is a
comment parses to an empty stale-entry list: all such lines are skipped
before any existence check. -/
theorem all_skipped_no_stale (codeownersPath projectRoot : String)
    (fs : FileSystem) (hex : fs.pathExists codeownersPath = true)
    (h : ∀ raw ∈ fs.fileLines codeownersPath,
      pyStrip raw = "" ∨ pyStartsWith (pyStrip raw) "#" = true) :
    parse_codeowners codeownersPath projectRoot fs =
      Except.ok ([], fs.fileLines codeownersPath) := by
  unfold parse_codeowners
  simp only [hex, if_true]
  rw [processLines_eq_nil_of_skipped projectRoot fs _ h 0]

/-- Witness for C7 on a manifest of comments and blank lines only. -/
theorem all_skipped_no_stale_witness :
    parse_codeowners "/repo/CODEOWNERS" "/repo" fsAll =
      Except.ok ([], fsAll.fileLines "/repo/CODEOWNERS") :=
  all_skipped_no_stale "/repo/CODEOWNERS" "/repo" fsAll rfl (by decide)

/-- C1: a non-comment, non-blank manifest line is reported stale exactly
when the existence test fails — glob expansion of the normalized resolved
path yields no match when the pattern has one of the metacharacters `*`,
`?`, `[`, and plain existence of the normalized resolved path fails
otherwise. -/
theorem stale_iff_not_existing (projectRoot : String) (fs : FileSystem)
    (n : Nat) (raw : String) (h1 : pyStrip raw ≠ "")
    (h2 : pyStartsWith (pyStrip raw) "#" = false) :
    (processLine projectRoot fs n raw).isSome =
      !(if hasGlobChar (splitFirstWS (pyStrip raw)).1 then
          fs.globNonempty (checkedPath (currentRoot projectRoot fs)
            (splitFirstWS (pyStrip raw)).1)
        else
          fs.pathExists (checkedPath (currentRoot projectRoot fs)
            (splitFirstWS (pyStrip raw)).1)) := by
  have hc : (decide (pyStrip raw = "") || pyStartsWith (pyStrip raw) "#")
      = false := by
    simp [h1, h2]
  have hfold : (if hasGlobChar (splitFirstWS (pyStrip raw)).1 then
        fs.globNonempty (checkedPath (currentRoot projectRoot fs)
          (splitFirstWS (pyStrip raw)).1)
      else
        fs.pathExists (checkedPath (currentRoot projectRoot fs)
          (splitFirstWS (pyStrip raw)).1))
      = entryExists fs (currentRoot projectRoot fs)
          (splitFirstWS (pyStrip raw)).1 := rfl
  rw [hfold]
  cases hE : entryExists fs (currentRoot projectRoot fs)
      (splitFirstWS (pyStrip raw)).1 <;>
    simp [processLine, hc, hE]

/-- Witness for C1 on a glob pattern with no filesystem match: the entry
is reported stale. -/
theorem stale_iff_not_existing_witness :
    (processLine "/r" fsEmpty 1 "src/*.go @go-team").isSome =
      !(if hasGlobChar (splitFirstWS (pyStrip "src/*.go @go-team")).1 then
          fsEmpty.globNonempty (checkedPath (currentRoot "/r" fsEmpty)
            (splitFirstWS (pyStrip "src/*.go @go-team")).1)
        else
          fsEmpty.pathExists (checkedPath (currentRoot "/r" fsEmpty)
            (splitFirstWS (pyStrip "src/*.go @go-team")).1)) :=
  stale_iff_not_existing "/r" fsEmpty 1 "src/*.go @go-team" (by decide)
    (by decide)

/-- C3: the filesystem-check target strips a leading slash before joining
to the resolution root, joins the pattern directly otherwise, and is
normalized before the existence check; a stale entry records the pattern
exactly as written in the manifest, leading slash preserved. -/
theorem resolved_path_and_pattern (projectRoot : String) (fs : FileSystem)
    (n : Nat) (raw : String) (h1 : pyStrip raw ≠ "")
    (h2 : pyStartsWith (pyStrip raw) "#" = false) :
    checkedPath (currentRoot projectRoot fs) (splitFirstWS (pyStrip raw)).1 =
      normpath (if pyStartsWith (splitFirstWS (pyStrip raw)).1 "/" then
          posixJoin (currentRoot projectRoot fs)
            (pyDropOne (splitFirstWS (pyStrip raw)).1)
        else
          posixJoin (currentRoot projectRoot fs)
            (splitFirstWS (pyStrip raw)).1) ∧
    ∀ e, processLine projectRoot fs n raw = some e →
      e.filePattern = (splitFirstWS (pyStrip raw)).1 := by
  refine ⟨rfl, ?_⟩
  intro e he
  simp only [processLine] at he
  split at he
  · exact absurd he (by simp)
  · split at he
    · exact absurd he (by simp)
    · cases he
      rfl

/-- Witness for C3 on the spec's example `/docs/missing.md`: the pattern
splits out exactly as written and the theorem applies. -/
theorem resolved_path_and_pattern_witness :
    (splitFirstWS (pyStrip "/docs/missing.md @team")).1 = "/docs/missing.md" ∧
    (checkedPath (currentRoot "/r" fsEmpty)
        (splitFirstWS (pyStrip "/docs/missing.md @team")).1 =
      normpath (if pyStartsWith
          (splitFirstWS (pyStrip "/docs/missing.md @team")).1 "/" then
          posixJoin (currentRoot "/r" fsEmpty)
            (pyDropOne (splitFirstWS (pyStrip "/docs/missing.md @team")).1)
        else
          posixJoin (currentRoot "/r" fsEmpty)
            (splitFirstWS (pyStrip "/docs/missing.md @team")).1) ∧
    ∀ e, processLine "/r" fsEmpty 4 "/docs/missing.md @team" = some e →
      e.filePattern = (splitFirstWS (pyStrip "/docs/missing.md @team")).1) :=
  ⟨by decide,
   resolved_path_and_pattern "/r" fsEmpty 4 "/docs/missing.md @team"
     (by decide) (by decide)⟩

/-- Bounds, display text and strict ordering of the entries produced by
the parse loop, from an arbitrary starting value of the line counter. -/
theorem processLines_bounds (projectRoot : String) (fs : FileSystem) :
    ∀ (lines : List String) (m : Nat),
      (∀ e ∈ processLines projectRoot fs m lines,
        m + 1 ≤ e.lineNum ∧ e.lineNum ≤ m + lines.length ∧
        ∃ l, lines[e.lineNum - m - 1]? = some l ∧
          e.displayLine = pyRstripCRLF l) ∧
      ((processLines projectRoot fs m lines).map (·.lineNum)).Pairwise
        (· < ·) := by
  intro lines
  induction lines with
  | nil =>
    intro m
    exact ⟨by simp [processLines], by simp [processLines]⟩
  | cons raw rest ih =>
    intro m
    have IH := ih (m + 1)
    cases hp : processLine projectRoot fs (m + 1) raw with
    | none =>
      constructor
      · intro e he
        simp only [processLines, hp] at he
        obtain ⟨hb1, hb2, l, hl, hd⟩ := IH.1 e he
        refine ⟨by omega, by simp only [List.length_cons]; omega, l, ?_, hd⟩
        rw [show e.lineNum - m - 1 = (e.lineNum - (m + 1) - 1) + 1 by omega]
        simpa using hl
      · simp only [processLines, hp]
        exact IH.2
    | some e0 =>
      obtain ⟨hnum, hdisp⟩ := processLine_fields projectRoot fs (m + 1) raw e0 hp
      constructor
      · intro e he
        simp only [processLines, hp, List.mem_cons] at he
        rcases he with he | he
        · subst he
          refine ⟨by omega, by simp only [List.length_cons]; omega, raw, ?_,
            hdisp⟩
          have hz : e.lineNum - m - 1 = 0 := by omega
          rw [hz]
          simp
        · obtain ⟨hb1, hb2, l, hl, hd⟩ := IH.1 e he
          refine ⟨by omega, by simp only [List.length_cons]; omega, l, ?_, hd⟩
          rw [show e.lineNum - m - 1 = (e.lineNum - (m + 1) - 1) + 1 by omega]
          simpa using hl
      · simp only [processLines, hp, List.map_cons]
        refine List.Pairwise.cons ?_ IH.2
        intro x hx
        simp only [List.mem_map] at hx
        obtain ⟨e, he, rfl⟩ := hx
        have hb := (IH.1 e he).1
        omega

/-- C4: stale entries appear in file order with strictly increasing — in
particular pairwise distinct — 1-based line numbers within the manifest's
bounds, so each manifest line contributes zero or one entry, and each
entry carries the exact original line text with the newline stripped. -/
theorem stale_entries_invariant (projectRoot : String) (fs : FileSystem)
    (lines : List String) :
    ((processLines projectRoot fs 0 lines).map (·.lineNum)).Pairwise
        (· < ·) ∧
    ((processLines projectRoot fs 0 lines).map (·.lineNum)).Nodup ∧
    ∀ e ∈ processLines projectRoot fs 0 lines,
      1 ≤ e.lineNum ∧ e.lineNum ≤ lines.length ∧
      ∃ l, lines[e.lineNum - 1]? = some l ∧
        e.displayLine = pyRstripCRLF l := by
  obtain ⟨h1, h2⟩ := processLines_bounds projectRoot fs lines 0
  refine ⟨h2, h2.imp (fun hlt => Nat.ne_of_lt hlt), ?_⟩
  intro e he
  obtain ⟨ha, hb, l, hl, hd⟩ := h1 e he
  exact ⟨by omega, by simpa using hb, l, by simpa using hl, hd⟩

/-- Zeta-expanded form of `patchLines`: the exact list of patch lines the
generator joins together. -/
theorem patchLines_unfold (relPath : String) (entries : List StaleEntry)
    (originalLines : List String) :
    patchLines relPath entries originalLines =
      ("--- a/" ++ relPath) :: ("+++ b/" ++ relPath) ::
      ("@@ -1," ++ toString (originalLines.length : Int) ++ " +1,"
        ++ toString ((originalLines.length : Int) -
            (((entries.map (·.lineNum)).dedup.length : Nat) : Int)) ++ " @@") ::
      (originalLines.enum.map (fun p =>
        if (p.1 + 1) ∈ (entries.map (·.lineNum)).dedup
        then "-" ++ pyRstripCRLF p.2 else " " ++ pyRstripCRLF p.2)) := rfl

/-- Rendering a natural number through the integer coercion prints the
same digits. -/
theorem tsInt (n : Nat) : toString (n : Int) = toString n := rfl

/-- C2: on a manifest of `N` lines whose stale set has `k` distinct line
numbers, the patch consists of the two header lines, the hunk header
`@@ -1,N +1,(N-k) @@`, then exactly one line per original manifest line in
original order — prefixed `-` when its line number is stale and by a
single space otherwise, each otherwise byte-identical to the source line
minus its line terminator — joined by newlines, ending with a trailing
newline, with no `+` insertion lines. -/
theorem patch_structure (relPath : String) (entries : List StaleEntry)
    (originalLines : List String)
    (hnd : (entries.map (·.lineNum)).Nodup)
    (hmem : ∀ e ∈ entries, 1 ≤ e.lineNum ∧ e.lineNum ≤ originalLines.length) :
    (patchLines relPath entries originalLines).length =
      3 + originalLines.length ∧
    (patchLines relPath entries originalLines)[0]? =
      some ("--- a/" ++ relPath) ∧
    (patchLines relPath entries originalLines)[1]? =
      some ("+++ b/" ++ relPath) ∧
    (patchLines relPath entries originalLines)[2]? =
      some ("@@ -1," ++ toString originalLines.length ++ " +1,"
        ++ toString (originalLines.length - entries.length) ++ " @@") ∧
    (∀ i, i < originalLines.length →
      (patchLines relPath entries originalLines)[3 + i]? =
        (originalLines[i]?).map (fun l =>
          (if (i + 1) ∈ entries.map (·.lineNum) then "-" else " ")
            ++ pyRstripCRLF l)) ∧
    (∀ i, i < originalLines.length →
      ((patchLines relPath entries originalLines)[3 + i]?.getD "").data.head?
        ≠ some '+') ∧
    generate_diff_patch relPath entries originalLines =
      String.intercalate "\n" (patchLines relPath entries originalLines)
        ++ "\n" := by
  have hded : (entries.map (·.lineNum)).dedup = entries.map (·.lineNum) :=
    List.dedup_eq_self.mpr hnd
  have hk : entries.length ≤ originalLines.length := by
    have hsub : (entries.map (·.lineNum)).toFinset ⊆
        Finset.Icc 1 originalLines.length := by
      intro x hx
      simp only [List.mem_toFinset, List.mem_map] at hx
      obtain ⟨e, he, rfl⟩ := hx
      simpa [Finset.mem_Icc] using hmem e he
    have hcard := Finset.card_le_card hsub
    rw [List.toFinset_card_of_nodup hnd, Nat.card_Icc, List.length_map]
      at hcard
    omega
  have hcast : (originalLines.length : Int) - (entries.length : Int) =
      ((originalLines.length - entries.length : Nat) : Int) := by omega
  have hbody : ∀ i, i < originalLines.length →
      (patchLines relPath entries originalLines)[3 + i]? =
        (originalLines[i]?).map (fun l =>
          (if (i + 1) ∈ entries.map (·.lineNum) then "-" else " ")
            ++ pyRstripCRLF l) := by
    intro i hi
    rw [patchLines_unfold, show 3 + i = i + 1 + 1 + 1 by omega,
      List.getElem?_cons_succ, List.getElem?_cons_succ,
      List.getElem?_cons_succ, List.getElem?_map, List.getElem?_enum,
      Option.map_map]
    cases hl : originalLines[i]? with
    | none => rfl
    | some l =>
      simp only [Option.map_some', Function.comp_apply, hded]
      by_cases hc : (i + 1) ∈ entries.map (·.lineNum) <;> simp [hc]
  refine ⟨?_, ?_, ?_, ?_, hbody, ?_, rfl⟩
  · rw [patchLines_unfold]
    simp [List.enum_length]
    omega
  · rw [patchLines_unfold]
    simp
  · rw [patchLines_unfold]
    simp
  · rw [patchLines_unfold]
    rw [hded, List.length_map, hcast, tsInt, tsInt]
    simp
  · intro i hi
    rw [hbody i hi]
    obtain ⟨l, hl⟩ : ∃ l, originalLines[i]? = some l :=
      ⟨originalLines[i], List.getElem?_eq_getElem hi⟩
    rw [hl]
    simp only [Option.map_some', Option.getD_some, String.data_append]
    by_cases hc : (i + 1) ∈ entries.map (·.lineNum)
    · rw [if_pos hc]
      have hdash : ("-" : String).data = ['-'] := rfl
      rw [hdash]
      simp
    · rw [if_neg hc]
      have hsp : (" " : String).data = [' '] := rfl
      rw [hsp]
      simp

/-- Witness for C2 on a three-line manifest whose second line is stale:
line numbers are distinct and in range, and the patch has the stated
shape. -/
theorem patch_structure_witness :
    (((([⟨"/m", "o", 2, "/m o"⟩] : List StaleEntry)).map (·.lineNum)).Nodup) ∧
    ((patchLines "CODEOWNERS" ([⟨"/m", "o", 2, "/m o"⟩] : List StaleEntry)
        ["a\n", "/m o\n", "b\n"]).length =
      3 + (["a\n", "/m o\n", "b\n"] : List String).length ∧
    (patchLines "CODEOWNERS" ([⟨"/m", "o", 2, "/m o"⟩] : List StaleEntry)
        ["a\n", "/m o\n", "b\n"])[0]? =
      some ("--- a/" ++ "CODEOWNERS") ∧
    (patchLines "CODEOWNERS" ([⟨"/m", "o", 2, "/m o"⟩] : List StaleEntry)
        ["a\n", "/m o\n", "b\n"])[1]? =
      some ("+++ b/" ++ "CODEOWNERS") ∧
    (patchLines "CODEOWNERS" ([⟨"/m", "o", 2, "/m o"⟩] : List StaleEntry)
        ["a\n", "/m o\n", "b\n"])[2]? =
      some ("@@ -1," ++ toString (["a\n", "/m o\n", "b\n"] : List String).length
        ++ " +1," ++ toString ((["a\n", "/m o\n", "b\n"] : List String).length -
          ([⟨"/m", "o", 2, "/m o"⟩] : List StaleEntry).length) ++ " @@") ∧
    (∀ i, i < (["a\n", "/m o\n", "b\n"] : List String).length →
      (patchLines "CODEOWNERS" ([⟨"/m", "o", 2, "/m o"⟩] : List StaleEntry)
          ["a\n", "/m o\n", "b\n"])[3 + i]? =
        ((["a\n", "/m o\n", "b\n"] : List String)[i]?).map (fun l =>
          (if (i + 1) ∈ ([⟨"/m", "o", 2, "/m o"⟩] : List StaleEntry).map
              (·.lineNum) then "-" else " ") ++ pyRstripCRLF l)) ∧
    (∀ i, i < (["a\n", "/m o\n", "b\n"] : List String).length →
      ((patchLines "CODEOWNERS" ([⟨"/m", "o", 2, "/m o"⟩] : List StaleEntry)
          ["a\n", "/m o\n", "b\n"])[3 + i]?.getD "").data.head? ≠ some '+') ∧
    generate_diff_patch "CODEOWNERS" ([⟨"/m", "o", 2, "/m o"⟩] : List StaleEntry)
        ["a\n", "/m o\n", "b\n"] =
      String.intercalate "\n" (patchLines "CODEOWNERS"
        ([⟨"/m", "o", 2, "/m o"⟩] : List StaleEntry) ["a\n", "/m o\n", "b\n"])
        ++ "\n") :=
  ⟨by decide,
   patch_structure "CODEOWNERS" ([⟨"/m", "o", 2, "/m o"⟩] : List StaleEntry)
     ["a\n", "/m o\n", "b\n"] (by decide) (by decide)⟩
